import Mathlib

/-!
Verification development for the quant analytics backend: a shallow
embedding of the tick store (`src/backend/storage.py`), the analytics
functions (`src/backend/analytics.py`) and the ingestion service
(`src/backend/ingestion.py`), with theorems settling the specified
properties.  Floating-point values are embedded as rationals; the real
square root inside pandas' rolling standard deviation is kept as an
explicit function parameter so that every definition stays executable.
-/

namespace QuantApp

/-- Python `str.lower()`: per-character lower-casing. -/
def lowerString (s : String) : String := String.mk (s.data.map Char.toLower)

/-- Python `str.upper()`: per-character upper-casing. -/
def upperString (s : String) : String := String.mk (s.data.map Char.toUpper)

/-- Row of the persisted `ticks` relation
(schema `ticks(ts_ms INTEGER, symbol TEXT, price REAL, qty REAL)`). -/
structure Tick where
  ts_ms : Int
  symbol : String
  price : ℚ
  qty : ℚ
deriving DecidableEq

/-- Embedding of `TickStore.insert_tick`: appends one row with the symbol
upper-cased (`symbol.upper()` in the source); the store is the append-only
list of committed rows. -/
def insert_tick (store : List Tick) (ts_ms : Int) (symbol : String)
    (price qty : ℚ) : List Tick :=
  store ++ [{ ts_ms := ts_ms, symbol := upperString symbol, price := price, qty := qty }]

/-- Comparison modelling `ORDER BY ts_ms ASC` of the fetch query. -/
def tsLe (a b : Tick) : Bool := decide (a.ts_ms ≤ b.ts_ms)

/-- Embedding of `TickStore.fetch_ticks`: upper-cases the query symbols,
keeps the rows whose symbol is among them and (when given) whose timestamp
is at least `since_ms`, ordered ascending by timestamp. -/
def fetch_ticks (store : List Tick) (symbols : List String)
    (since_ms : Option Int) : List Tick :=
  let syms := symbols.map upperString
  (store.filter (fun t =>
    decide (t.symbol ∈ syms) &&
      (match since_ms with
       | none => true
       | some s => decide (s ≤ t.ts_ms)))).mergeSort tsLe

/-- Embedding of `TickStore._tf_to_pandas_freq`: lower-cases the timeframe
and maps each accepted spelling to its pandas frequency string; `none`
models the `ValueError` the source raises for anything else. -/
def tf_to_pandas_freq (tf : String) : Option String :=
  let t := lowerString tf
  if t = "1s" ∨ t = "1sec" ∨ t = "1second" then some "1s"
  else if t = "1m" ∨ t = "1min" ∨ t = "1minute" then some "1min"
  else if t = "5m" ∨ t = "5min" ∨ t = "5minutes" then some "5min"
  else none

/-- The timeframe spellings `_tf_to_pandas_freq` accepts (after
lower-casing). -/
def acceptedTfSpellings : List String :=
  ["1s", "1sec", "1second", "1m", "1min", "1minute", "5m", "5min", "5minutes"]

/-- Milliseconds per bucket of each pandas frequency string produced by
`tf_to_pandas_freq`. -/
def pandasFreqMs : String → Nat
  | "1s" => 1000
  | "1min" => 60000
  | "5min" => 300000
  | _ => 0

/-- Row of the resampled OHLCV frame.  The four price columns are `none`
when the bucket holds no tick (pandas `NaN` from `.ohlc()`); the volume
column comes from `.resample(freq).sum()`, which reports `0.0` — never
`NaN` — for an empty bucket, so it is an `Option` that is always `some`. -/
structure BarRow where
  o : Option ℚ
  h : Option ℚ
  l : Option ℚ
  c : Option ℚ
  v : Option ℚ
deriving DecidableEq

/-- Bucket index of a tick: its timestamp floor-divided by the bucket
width, matching pandas' epoch-aligned bucketing for 1s/1min/5min. -/
def bucketOf (freq_ms : Nat) (t : Tick) : Int := Int.fdiv t.ts_ms (freq_ms : Int)

/-- The ticks falling in one bucket, in stored (timestamp) order. -/
def bucketTicks (ticks : List Tick) (freq_ms : Nat) (b : Int) : List Tick :=
  ticks.filter (fun t => decide (bucketOf freq_ms t = b))

/-- Maximum of a rational list, `none` when empty. -/
def listMax : List ℚ → Option ℚ
  | [] => none
  | x :: xs => some (xs.foldl max x)

/-- Minimum of a rational list, `none` when empty. -/
def listMin : List ℚ → Option ℚ
  | [] => none
  | x :: xs => some (xs.foldl min x)

/-- One OHLCV row from the ticks of one bucket: open and close are the
first and last prices, high and low the extremes, volume the quantity sum
(an empty bucket yields `none` prices and volume `some 0`). -/
def mkBarRow (g : List Tick) : BarRow :=
  { o := g.head?.map Tick.price
    h := listMax (g.map Tick.price)
    l := listMin (g.map Tick.price)
    c := g.getLast?.map Tick.price
    v := some ((g.map Tick.qty).sum) }

/-- Test used by `dropna(how="all")`: a row is dropped only when all five
columns are missing. -/
def rowAllNa (r : BarRow) : Bool :=
  r.o.isNone && r.h.isNone && r.l.isNone && r.c.isNone && r.v.isNone

/-- Core of `TickStore.resample_ohlcv` for the (nonempty, ascending) ticks
of one symbol: pandas `resample` produces one row per bucket from the
first tick's bucket to the last tick's bucket, and `dropna(how="all")`
filters out the rows whose every column is missing. -/
def resampleCore (ticks : List Tick) (freq_ms : Nat) : List (Int × BarRow) :=
  match ticks with
  | [] => []
  | t0 :: rest =>
    let lo := bucketOf freq_ms t0
    let hi := bucketOf freq_ms ((t0 :: rest).getLastD t0)
    ((List.range ((hi - lo).toNat + 1)).map (fun i =>
      let b := lo + (i : Int)
      (b, mkBarRow (bucketTicks (t0 :: rest) freq_ms b)))).filter
      (fun p => ! rowAllNa p.2)

/-- Embedding of `TickStore.resample_ohlcv`, taking the ticks fetched for
the symbol inside the lookback window (ascending by timestamp).  The
source returns an empty frame before validating the timeframe when the
fetch is empty; `Except.error` models the raised `ValueError`. -/
def resample_ohlcv (ticks : List Tick) (timeframe : String) :
    Except String (List (Int × BarRow)) :=
  if ticks.isEmpty then Except.ok []
  else
    match tf_to_pandas_freq timeframe with
    | none => Except.error ("Unsupported timeframe: " ++ lowerString timeframe)
    | some fr => Except.ok (resampleCore ticks (pandasFreqMs fr))

/-- Time-indexed series with possibly missing values: the index is assumed
strictly increasing with distinct keys, `none` models `NaN`. -/
abbrev Series := List (Nat × Option ℚ)

/-- Value of a series at a key, `none` when the key is absent. -/
def lookupKey (k : Nat) (s : Series) : Option (Option ℚ) :=
  (s.find? (fun kv => decide (kv.1 = k))).map Prod.snd

/-- Embedding of `align_series`: inner join on the index keeping the rows
where both values are present (`pd.concat([...], axis=1).dropna()`),
returned as (y value, x value) pairs. -/
def align_series (a b : Series) : List (ℚ × ℚ) :=
  a.filterMap (fun kv =>
    match kv.2, lookupKey kv.1 b with
    | some va, some (some vb) => some (va, vb)
    | _, _ => none)

/-- Arithmetic mean of a rational list (0 when empty, as 0/0 = 0). -/
def qmean (l : List ℚ) : ℚ := l.sum / (l.length : ℚ)

/-- Centered second moment used by `ols_hedge_ratio`:
sum of squared deviations of the x values from their mean. -/
def varXOf (p : List (ℚ × ℚ)) : ℚ :=
  ((p.map Prod.snd).map (fun w => (w - qmean (p.map Prod.snd)) ^ 2)).sum

/-- Cross deviation sum used by `ols_hedge_ratio`:
sum over the aligned pairs of (x − x̄)(y − ȳ). -/
def covXYOf (p : List (ℚ × ℚ)) : ℚ :=
  (p.map (fun q =>
    (q.2 - qmean (p.map Prod.snd)) * (q.1 - qmean (p.map Prod.fst)))).sum

/-- Embedding of `ols_hedge_ratio`: 1 with fewer than two aligned points
or zero x variance, otherwise the closed-form single-regressor slope. -/
def ols_hedge_ratio (y x : Series) : ℚ :=
  let p := align_series y x
  if p.length < 2 then 1
  else if varXOf p = 0 then 1
  else covXYOf p / varXOf p

/-- Trailing window of length (at most) `w` ending at position `i`. -/
def windowSlice (xs : List ℚ) (w i : Nat) : List ℚ :=
  (xs.take (i + 1)).drop (i + 1 - w)

/-- Population variance of a rational list (divisor = length). -/
def popVar (l : List ℚ) : ℚ :=
  ((l.map (fun w => (w - qmean l) ^ 2)).sum) / (l.length : ℚ)

/-- Pandas `series.rolling(w).mean()`: missing until `w` points are
available, then the mean of the trailing `w` points. -/
def rollMean (xs : List ℚ) (w : Nat) : List (Option ℚ) :=
  (List.range xs.length).map (fun i =>
    if i + 1 < w then none else some (qmean (windowSlice xs w i)))

/-- Pandas `series.rolling(w).std(ddof=0)`: missing until `w` points are
available, then the population standard deviation of the trailing window;
`sq` stands for the real square root on the rational embedding. -/
def rollStd (sq : ℚ → ℚ) (xs : List ℚ) (w : Nat) : List (Option ℚ) :=
  (List.range xs.length).map (fun i =>
    if i + 1 < w then none else some (sq (popVar (windowSlice xs w i))))

/-- Embedding of `rolling_zscore`: an all-missing series of the same shape
when `window ≤ 1`, otherwise the elementwise `(series - mu) / sigma` over
the rolling mean and rolling population standard deviation. -/
def rolling_zscore (sq : ℚ → ℚ) (xs : List ℚ) (window : Int) : List (Option ℚ) :=
  if window ≤ 1 then xs.map (fun _ => none)
  else
    let w := window.toNat
    (List.range xs.length).map (fun i =>
      match (rollMean xs w).getD i none, (rollStd sq xs w).getD i none with
      | some mu, some sigma => some ((xs.getD i 0 - mu) / sigma)
      | _, _ => none)

/-- One step of the backtest's position state machine (`simple_mr_backtest`
loop body before the pnl append): from flat, enter short above `entry` or
long below `-entry`; from a held position, flatten when `|z|` is inside
`exit`. -/
def mrStep (entry exit : ℚ) (pos : Int) (val : ℚ) : Int :=
  if pos = 0 then
    if val > entry then -1
    else if val < -entry then 1
    else 0
  else if |val| < exit then 0
  else pos

/-- Per-step pnl list of `simple_mr_backtest`, threading the position and
the previous z value exactly as the source loop does: the position is
updated first, then the appended pnl uses the updated position. -/
def mrPnlAux (entry exit : ℚ) : Int → Option ℚ → List ℚ → List ℚ
  | _, _, [] => []
  | pos, prev, val :: rest =>
    let pos' := mrStep entry exit pos val
    (match prev with
     | none => (0 : ℚ)
     | some pz => (pos' : ℚ) * (pz - val)) :: mrPnlAux entry exit pos' (some val) rest

/-- The pnl column of `simple_mr_backtest` on a NaN-free z sequence. -/
def mrPnl (entry exit : ℚ) (z : List ℚ) : List ℚ := mrPnlAux entry exit 0 none z

/-- Running cumulative sum (pandas `.cumsum()`), one output per input. -/
def cumsum (l : List ℚ) : List ℚ := (l.scanl (· + ·) 0).tail

/-- Embedding of `simple_mr_backtest`: the equity column, the cumulative
sum of the per-step pnl. -/
def simple_mr_backtest (z : List ℚ) (entry exit : ℚ) : List ℚ :=
  cumsum (mrPnl entry exit z)

/-- Position held after step `i`'s state transition: the fold of `mrStep`
over the first `i + 1` observations. -/
def posAfterStep (entry exit : ℚ) (z : List ℚ) (i : Nat) : Int :=
  (z.take (i + 1)).foldl (mrStep entry exit) 0

/-- Position held before step `i`'s state transition: the fold of `mrStep`
over the first `i` observations. -/
def posBeforeStep (entry exit : ℚ) (z : List ℚ) (i : Nat) : Int :=
  (z.take i).foldl (mrStep entry exit) 0

/-- Modelled from the spec's words for comparison (claim C2): per-step pnl
equal to the position held before the step's transition times the z
decrement, zero at the first observation. -/
def specPnl (entry exit : ℚ) (z : List ℚ) (i : Nat) : ℚ :=
  if i = 0 then 0
  else (posBeforeStep entry exit z i : ℚ) * (z.getD (i - 1) 0 - z.getD i 0)

/-- Fields a trade message may carry once `json.loads` succeeds: the `E`
and `T` event times, the `p`/`price` and `q`/`qty` values and the `s`
symbol; `none` models an absent key.  A failing numeric conversion is
folded into `FeedMsg.malformed`. -/
structure TradeFields where
  fE : Option Int := none
  fT : Option Int := none
  fp : Option ℚ := none
  fprice : Option ℚ := none
  fq : Option ℚ := none
  fqty : Option ℚ := none
  fs : Option String := none
deriving DecidableEq

/-- A feed message as `_consume_symbol` sees it: `malformed` when
`json.loads` or one of the `int`/`float` conversions raises (the
`except Exception: continue` path), otherwise the parsed fields. -/
inductive FeedMsg
  | malformed
  | parsed (f : TradeFields)
deriving DecidableEq

/-- Python `int(data.get("E") or data.get("T") or 0)`: a missing or zero
(falsy) `E` falls through to `T`, then to 0. -/
def truthyTs (e t : Option Int) : Int :=
  let ev := e.getD 0
  let tv := t.getD 0
  if ev ≠ 0 then ev else tv

/-- Python `float(data["p"]) if "p" in data else float(data.get("price", 0))`. -/
def extractPrice (f : TradeFields) : ℚ :=
  match f.fp with
  | some p => p
  | none => f.fprice.getD 0

/-- Python `float(data["q"]) if "q" in data else float(data.get("qty", 0))`. -/
def extractQty (f : TradeFields) : ℚ :=
  match f.fq with
  | some q => q
  | none => f.fqty.getD 0

/-- Python `(data.get("s") or symbol).upper()` (the empty string is falsy). -/
def extractSym (defaultSym : String) (f : TradeFields) : String :=
  match f.fs with
  | some s => if s ≠ "" then upperString s else upperString defaultSym
  | none => upperString defaultSym

/-- Per-message body of `IngestionService._consume_symbol`: the store
after processing one message.  A message that is malformed or fails the
`ts_ms and price > 0 and qty >= 0` guard leaves the store unchanged (the
drop paths), a valid one is inserted immediately.  Totality of this
function is the embedding of "never raises out of the consumer task". -/
def consumeMsg (symbol : String) (store : List Tick) (m : FeedMsg) : List Tick :=
  match m with
  | FeedMsg.malformed => store
  | FeedMsg.parsed f =>
    let ts := truthyTs f.fE f.fT
    let price := extractPrice f
    let qty := extractQty f
    if ts ≠ 0 ∧ price > 0 ∧ qty ≥ 0 then
      insert_tick store ts (extractSym symbol f) price qty
    else store

/-- Events driving one iteration of the `_consume_symbol` reconnect loop:
the stop event observed set at the loop head, a connection attempt ending
in an exception, or an attempt whose handshake succeeds. -/
inductive LoopEvent
  | stopSet
  | connFail
  | connOk
deriving DecidableEq

/-- Observable actions of the reconnect loop: a connection attempt, or a
backoff sleep of the given duration. -/
inductive LoopAction
  | attempt
  | sleep (d : ℚ)
deriving DecidableEq

/-- Trace semantics of the `_consume_symbol` while-loop: the backoff
starts at 1, a failed attempt sleeps the current backoff and doubles it
capped at 30, a successful handshake resets it to 1, and a set stop event
ends the loop with no further attempt. -/
def consumeLoop (backoff : ℚ) : List LoopEvent → List LoopAction
  | [] => []
  | LoopEvent.stopSet :: _ => []
  | LoopEvent.connFail :: rest =>
    LoopAction.attempt :: LoopAction.sleep backoff ::
      consumeLoop (min (backoff * 2) 30) rest
  | LoopEvent.connOk :: rest => LoopAction.attempt :: consumeLoop 1 rest

/-- The sleeps of a trace, in order. -/
def sleepsOf (acts : List LoopAction) : List ℚ :=
  acts.filterMap (fun a =>
    match a with
    | LoopAction.sleep d => some d
    | _ => none)

/-- Lexicographic comparison of char lists by code point, modelling
Python string comparison. -/
def charListLe : List Char → List Char → Bool
  | [], _ => true
  | _ :: _, [] => false
  | a :: as, b :: bs =>
    if a.toNat < b.toNat then true
    else if b.toNat < a.toNat then false
    else charListLe as bs

/-- String comparison used by the sort modelling Python `sorted`. -/
def strLe (a b : String) : Bool := charListLe a.data b.data

/-- Insertion of a string into a sorted list (ascending). -/
def insertSorted (s : String) : List String → List String
  | [] => [s]
  | x :: xs => if strLe s x then s :: x :: xs else x :: insertSorted s xs

/-- Insertion sort on strings, modelling Python `sorted`. -/
def sortStrings : List String → List String
  | [] => []
  | x :: xs => insertSorted x (sortStrings xs)

/-- Normalization in `IngestionService.start`:
`sorted({s.lower() for s in symbols})`. -/
def normalize_symbols (symbols : List String) : List String :=
  sortStrings ((symbols.map lowerString).dedup)

/-- Session state of the ingestion service: the stored normalized symbol
list and whether the ingestion thread is alive. -/
structure IngestState where
  symbols : List String
  running : Bool
deriving DecidableEq

/-- Externally visible effects of one `start` call. -/
inductive StartAction
  | stopSession
  | launchTasks (syms : List String)
deriving DecidableEq

/-- Embedding of `IngestionService.start`: a no-op when the normalized set
equals the stored one and the service is running, otherwise it stops the
existing session and then launches one task per symbol of the new
normalized set. -/
def start (st : IngestState) (symbols : List String) :
    IngestState × List StartAction :=
  let syms := normalize_symbols symbols
  if syms = st.symbols ∧ st.running then (st, [])
  else ({ symbols := syms, running := true },
    [StartAction.stopSession, StartAction.launchTasks syms])

/-! Helper lemmas shared by the claim theorems. -/

lemma getD_map_range {α : Type} (f : ℕ → α) (n i : ℕ) (d : α) (h : i < n) :
    ((List.range n).map f).getD i d = f i := by
  simp [List.getD_eq_getElem?_getD, List.getElem?_map, List.getElem?_range h]

lemma tf_freq_none_iff (tf : String) :
    tf_to_pandas_freq tf = none ↔ lowerString tf ∉ acceptedTfSpellings := by
  simp only [tf_to_pandas_freq, acceptedTfSpellings, List.mem_cons, List.not_mem_nil,
    or_false]
  split_ifs with h1 h2 h3 <;> simp_all <;> tauto

/-- Claim C1 (status code_bug).  Input: ticks of one symbol at 0 ms
(price 10, qty 1) and 2000 ms (price 11, qty 2), timeframe 1s.  The 1s
period [1000, 2000) lies inside the lookback range and contains zero
ticks, yet the code emits a bar row for it — all four price columns
missing and volume 0 — because `resample(freq).sum()` returns 0.0 rather
than `NaN` for an empty bucket, so `dropna(how="all")` keeps the row.
The spec states a period with zero ticks produces no bar at all. -/
theorem C1_resample_emits_empty_period_row :
    resample_ohlcv
        [{ ts_ms := 0, symbol := "BTCUSDT", price := 10, qty := 1 },
         { ts_ms := 2000, symbol := "BTCUSDT", price := 11, qty := 2 }] "1s" =
      Except.ok
        [((0 : Int), { o := some 10, h := some 10, l := some 10, c := some 10, v := some 1 }),
         ((1 : Int), { o := none, h := none, l := none, c := none, v := some 0 }),
         ((2 : Int), { o := some 11, h := some 11, l := some 11, c := some 11, v := some 2 })] := by
  have h0 : resample_ohlcv
      [{ ts_ms := 0, symbol := "BTCUSDT", price := 10, qty := 1 },
       { ts_ms := 2000, symbol := "BTCUSDT", price := 11, qty := 2 }] "1s" =
      Except.ok
        [((0 : Int), mkBarRow [{ ts_ms := 0, symbol := "BTCUSDT", price := 10, qty := 1 }]),
         ((1 : Int), mkBarRow []),
         ((2 : Int), mkBarRow [{ ts_ms := 2000, symbol := "BTCUSDT", price := 11, qty := 2 }])] := rfl
  have h1 : mkBarRow [{ ts_ms := 0, symbol := "BTCUSDT", price := 10, qty := 1 }] =
      { o := some 10, h := some 10, l := some 10, c := some 10, v := some 1 } := by
    simp [mkBarRow, listMax, listMin]
  have h2 : mkBarRow ([] : List Tick) =
      { o := none, h := none, l := none, c := none, v := some 0 } := by
    simp [mkBarRow, listMax, listMin]
  have h3 : mkBarRow [{ ts_ms := 2000, symbol := "BTCUSDT", price := 11, qty := 2 }] =
      { o := some 11, h := some 11, l := some 11, c := some 11, v := some 2 } := by
    simp [mkBarRow, listMax, listMin]
  rw [h0, h1, h2, h3]

/-- Claim C3 (amended): `resample_ohlcv` signals the configuration error
exactly when the fetched tick window is nonempty and the lower-cased
timeframe is outside the nine accepted spellings; with an empty window it
returns an empty frame before validating the timeframe, and accepted
spellings never raise. -/
theorem C3_resample_config_error_iff (ticks : List Tick) (tf : String) :
    (∃ e, resample_ohlcv ticks tf = Except.error e) ↔
      ticks ≠ [] ∧ lowerString tf ∉ acceptedTfSpellings := by
  rw [← tf_freq_none_iff]
  unfold resample_ohlcv
  rcases ticks with _ | ⟨t, ts⟩
  · simp
  · cases h : tf_to_pandas_freq tf with
    | none => simp [h]
    | some fr => simp [h]

/-- Counterexample to claim C3 as stated: with an empty lookback window no
error is raised even for the unsupported timeframe "2h" (the source
returns the empty frame before validating), and the spelling "1MIN",
which is not in the enumerated set {1s, 1m, 5m}, is accepted. -/
theorem C3_unsupported_timeframe_not_always_raised :
    resample_ohlcv ([] : List Tick) "2h" = Except.ok [] ∧
    tf_to_pandas_freq "2h" = none ∧
    tf_to_pandas_freq "1MIN" = some "1min" :=
  ⟨rfl, rfl, rfl⟩

/-- Claim C4: `ols_hedge_ratio` returns exactly 1 when there are fewer
than 2 aligned points or the x-deviation denominator is zero, and
otherwise the closed-form single-regressor OLS slope over the aligned
points. -/
theorem C4_hedge_ratio_spec (y x : Series) :
    ((align_series y x).length < 2 ∨ varXOf (align_series y x) = 0 →
      ols_hedge_ratio y x = 1) ∧
    (2 ≤ (align_series y x).length → varXOf (align_series y x) ≠ 0 →
      ols_hedge_ratio y x = covXYOf (align_series y x) / varXOf (align_series y x)) := by
  unfold ols_hedge_ratio
  constructor
  · rintro (h | h)
    · rw [if_pos h]
    · rcases lt_or_le (align_series y x).length 2 with h2 | h2
      · rw [if_pos h2]
      · rw [if_neg (by omega), if_pos h]
  · intro h1 h2
    rw [if_neg (by omega), if_neg h2]

/-- Witness for C4 at a concrete input: three aligned points with nonzero
x variance reproduce the closed-form slope. -/
theorem C4_hedge_ratio_witness :
    ols_hedge_ratio [(0, some 1), (1, some 2), (2, some 4)]
        [(0, some 1), (1, some 2), (2, some 3)] =
      covXYOf (align_series [(0, some 1), (1, some 2), (2, some 4)]
          [(0, some 1), (1, some 2), (2, some 3)]) /
        varXOf (align_series [(0, some 1), (1, some 2), (2, some 4)]
          [(0, some 1), (1, some 2), (2, some 3)]) := by
  have hAl : align_series [(0, some 1), (1, some 2), (2, some 4)]
      [(0, some 1), (1, some 2), (2, some 3)] = [(1, 1), (2, 2), (4, 3)] := rfl
  refine (C4_hedge_ratio_spec _ _).2 (by rw [hAl]; norm_num) ?_
  rw [hAl]
  norm_num [varXOf, qmean]

/-- Claim C6 (amended): a malformed message, a non-positive price or a
negative quantity leaves the store unchanged (the message is dropped, no
exception escapes the total consumer step), and a message that parses
with positive price, non-negative quantity and a nonzero extracted event
time is inserted immediately. -/
theorem C6_message_filter_spec (symbol : String) (store : List Tick) (f : TradeFields) :
    consumeMsg symbol store FeedMsg.malformed = store ∧
    (extractPrice f ≤ 0 → consumeMsg symbol store (FeedMsg.parsed f) = store) ∧
    (extractQty f < 0 → consumeMsg symbol store (FeedMsg.parsed f) = store) ∧
    (truthyTs f.fE f.fT ≠ 0 → 0 < extractPrice f → 0 ≤ extractQty f →
      consumeMsg symbol store (FeedMsg.parsed f) =
        insert_tick store (truthyTs f.fE f.fT) (extractSym symbol f)
          (extractPrice f) (extractQty f)) := by
  refine ⟨rfl, ?_, ?_, ?_⟩
  · intro h
    unfold consumeMsg
    exact if_neg (fun hc => absurd hc.2.1 (not_lt.mpr h))
  · intro h
    unfold consumeMsg
    exact if_neg (fun hc => absurd hc.2.2 (not_le.mpr h))
  · intro h1 h2 h3
    unfold consumeMsg
    exact if_pos ⟨h1, h2, h3⟩

/-- Witness for C6 at a concrete input: a well-formed trade with event
time, price 100 and quantity 2 is inserted immediately. -/
theorem C6_message_witness :
    consumeMsg "btcusdt" []
        (FeedMsg.parsed { fE := some 1700000000000, fp := some 100, fq := some 2 }) =
      insert_tick []
        (truthyTs (some 1700000000000) none)
        (extractSym "btcusdt" { fE := some 1700000000000, fp := some 100, fq := some 2 })
        (extractPrice { fE := some 1700000000000, fp := some 100, fq := some 2 })
        (extractQty { fE := some 1700000000000, fp := some 100, fq := some 2 }) :=
  (C6_message_filter_spec "btcusdt" [] _).2.2.2
    (by norm_num [truthyTs]) (by norm_num [extractPrice]) (by norm_num [extractQty])

/-- Counterexample to claim C6 as stated: a message that parses with
positive price and non-negative quantity but no event time field is
dropped (no row is inserted), against "is written immediately". -/
theorem C6_parsed_valid_price_qty_dropped :
    consumeMsg "btcusdt" []
        (FeedMsg.parsed { fp := some 100, fq := some 1 }) = [] ∧
    0 < extractPrice { fp := some 100, fq := some 1 } ∧
    0 ≤ extractQty ({ fp := some 100, fq := some 1 } : TradeFields) :=
  ⟨rfl, by norm_num [extractPrice], by norm_num [extractQty]⟩

/-- Claim C9: rows are stored with the upper-cased symbol, and a tick
inserted under symbol `s` is returned by a fetch for any `t` equal to `s`
up to letter case. -/
theorem C9_symbol_case_roundtrip (store : List Tick) (ts : Int) (s t : String)
    (price qty : ℚ) (hcase : upperString t = upperString s) :
    (∀ tk ∈ insert_tick store ts s price qty, tk ∈ store ∨ tk.symbol = upperString s) ∧
    ({ ts_ms := ts, symbol := upperString s, price := price, qty := qty } : Tick) ∈
      fetch_ticks (insert_tick store ts s price qty) [t] none := by
  constructor
  · intro tk htk
    rcases List.mem_append.mp htk with h | h
    · exact Or.inl h
    · right
      rw [List.mem_singleton.mp h]
  · unfold fetch_ticks
    rw [List.mem_mergeSort, List.mem_filter]
    refine ⟨List.mem_append_right _ (List.mem_singleton_self _), ?_⟩
    simp [hcase]

/-- Witness for C9 at a concrete input: an insert under "btcUsdt" is
found by a fetch for "BTCusdt". -/
theorem C9_roundtrip_witness :
    (∀ tk ∈ insert_tick [] 5 "btcUsdt" 10 1,
      tk ∈ ([] : List Tick) ∨ tk.symbol = upperString "btcUsdt") ∧
    ({ ts_ms := 5, symbol := upperString "btcUsdt", price := 10, qty := 1 } : Tick) ∈
      fetch_ticks (insert_tick [] 5 "btcUsdt" 10 1) ["BTCusdt"] none :=
  C9_symbol_case_roundtrip [] 5 "btcUsdt" "BTCusdt" 10 1 rfl

/-- Claim C10: a message whose extracted event time is missing or zero is
dropped even when it parses with valid price and quantity, and a message
changes the store only if it parsed with a nonzero event time. -/
theorem C10_zero_event_time_dropped (symbol : String) (store : List Tick)
    (f : TradeFields) (hts : truthyTs f.fE f.fT = 0) :
    consumeMsg symbol store (FeedMsg.parsed f) = store ∧
    (∀ m : FeedMsg, consumeMsg symbol store m ≠ store →
      ∃ g, m = FeedMsg.parsed g ∧ truthyTs g.fE g.fT ≠ 0) := by
  constructor
  · unfold consumeMsg
    exact if_neg (fun hc => hc.1 hts)
  · intro m hm
    cases m with
    | malformed => exact absurd rfl hm
    | parsed g =>
      by_cases hc : truthyTs g.fE g.fT ≠ 0 ∧ 0 < extractPrice g ∧ 0 ≤ extractQty g
      · exact ⟨g, rfl, hc.1⟩
      · refine absurd ?_ hm
        unfold consumeMsg
        exact if_neg hc

/-- Witness for C10 at a concrete input: a trade with price 100 and
quantity 1 but no event time field inserts nothing. -/
theorem C10_zero_event_time_witness :
    consumeMsg "btcusdt" [] (FeedMsg.parsed { fp := some 100, fq := some 1 }) = [] ∧
    (∀ m : FeedMsg, consumeMsg "btcusdt" [] m ≠ [] →
      ∃ g, m = FeedMsg.parsed g ∧ truthyTs g.fE g.fT ≠ 0) :=
  C10_zero_event_time_dropped "btcusdt" [] { fp := some 100, fq := some 1 } rfl

lemma mrPnlAux_length (entry exit : ℚ) (z : List ℚ) :
    ∀ (pos : Int) (prev : Option ℚ),
      (mrPnlAux entry exit pos prev z).length = z.length := by
  induction z with
  | nil => intro pos prev; rfl
  | cons v rest ih => intro pos prev; simp [mrPnlAux, ih]

lemma mrPnlAux_getD (entry exit : ℚ) (z : List ℚ) :
    ∀ (pos : Int) (pz : ℚ) (i : ℕ), i < z.length →
      (mrPnlAux entry exit pos (some pz) z).getD i 0 =
        (((z.take (i + 1)).foldl (mrStep entry exit) pos : Int) : ℚ) *
          ((pz :: z).getD i 0 - z.getD i 0) := by
  induction z with
  | nil => intro pos pz i hi; simp at hi
  | cons v rest ih =>
    intro pos pz i hi
    cases i with
    | zero =>
      simp [mrPnlAux, List.take_succ_cons, List.getD_cons_zero]
    | succ j =>
      have hj : j < rest.length := by simpa using hi
      simp only [mrPnlAux, List.getD_cons_succ, List.take_succ_cons, List.foldl_cons]
      exact ih (mrStep entry exit pos v) v j hj

/-- Claim C2 (amended): the pnl accrued at each step after the first
equals the position held after this step's state transition times
`previous_z - current_z` (the source updates the position before
appending pnl), so pnl is zero at each step whose post-transition
position is flat; the first observation contributes zero pnl and equity
is the running cumulative sum with one value per input observation. -/
theorem C2_pnl_uses_post_transition_position (entry exit : ℚ) (z : List ℚ) (i : ℕ)
    (hi : i < z.length) :
    simple_mr_backtest z entry exit = cumsum (mrPnl entry exit z) ∧
    (simple_mr_backtest z entry exit).length = z.length ∧
    (mrPnl entry exit z).getD 0 0 = 0 ∧
    (1 ≤ i → (mrPnl entry exit z).getD i 0 =
      (posAfterStep entry exit z i : ℚ) * (z.getD (i - 1) 0 - z.getD i 0)) ∧
    (posAfterStep entry exit z i = 0 → (mrPnl entry exit z).getD i 0 = 0) := by
  have hlen : (simple_mr_backtest z entry exit).length = z.length := by
    simp [simple_mr_backtest, cumsum, List.length_tail, List.length_scanl,
      mrPnl, mrPnlAux_length]
  have hzero0 : (mrPnl entry exit z).getD 0 0 = 0 := by
    rcases z with _ | ⟨v, rest⟩ <;> simp [mrPnl, mrPnlAux]
  have hmain : 1 ≤ i → (mrPnl entry exit z).getD i 0 =
      (posAfterStep entry exit z i : ℚ) * (z.getD (i - 1) 0 - z.getD i 0) := by
    intro h1
    rcases z with _ | ⟨v, rest⟩
    · simp at hi
    · rcases i with _ | j
      · omega
      · have hj : j < rest.length := by simpa using hi
        simp only [mrPnl, mrPnlAux, List.getD_cons_succ]
        rw [mrPnlAux_getD entry exit rest (mrStep entry exit 0 v) v j hj]
        simp [posAfterStep, List.take_succ_cons, List.foldl_cons]
  refine ⟨rfl, hlen, hzero0, hmain, ?_⟩
  intro hpos
  rcases Nat.eq_zero_or_pos i with h0 | h1
  · subst h0; exact hzero0
  · rw [hmain h1, hpos]
    simp

/-- Witness for C2 at a concrete input: z = [0, 5/2] with entry 2, exit 0;
the step-1 pnl equals the post-transition (short) position times the z
decrement. -/
theorem C2_backtest_witness :
    simple_mr_backtest [0, 5/2] 2 0 = cumsum (mrPnl 2 0 [0, 5/2]) ∧
    (simple_mr_backtest [0, 5/2] 2 0).length = ([0, (5:ℚ)/2]).length ∧
    (mrPnl 2 0 [0, 5/2]).getD 0 0 = 0 ∧
    (1 ≤ 1 → (mrPnl 2 0 [0, 5/2]).getD 1 0 =
      (posAfterStep 2 0 [0, 5/2] 1 : ℚ) *
        (([0, (5:ℚ)/2]).getD 0 0 - ([0, (5:ℚ)/2]).getD 1 0)) ∧
    (posAfterStep 2 0 [0, 5/2] 1 = 0 → (mrPnl 2 0 [0, 5/2]).getD 1 0 = 0) :=
  C2_pnl_uses_post_transition_position 2 0 [0, 5/2] 1 (by norm_num)

/-- Counterexample to claim C2 as stated: on z = [0, 5/2] with entry 2 and
exit 0, the position before step 1 is flat and the spec's pre-transition
pnl reading predicts 0, yet the code accrues pnl 5/2 at step 1 (it enters
short first, then accrues with the new position). -/
theorem C2_flat_position_accrues_pnl :
    posBeforeStep 2 0 [0, 5/2] 1 = 0 ∧
    specPnl 2 0 [0, 5/2] 1 = 0 ∧
    (mrPnl 2 0 [0, 5/2]).getD 1 0 = 5/2 := by
  refine ⟨?_, ?_, ?_⟩
  · norm_num [posBeforeStep, mrStep]
  · norm_num [specPnl, posBeforeStep, mrStep]
  · norm_num [mrPnl, mrPnlAux, mrStep]

lemma windowSlice_length (xs : List ℚ) (w i : ℕ) (hi : i < xs.length)
    (hw : w ≤ i + 1) : (windowSlice xs w i).length = w := by
  rw [windowSlice, List.length_drop, List.length_take, min_eq_left (by omega)]
  omega

/-- Claim C5: `rolling_zscore` returns an all-missing series of the same
shape when `window ≤ 1`; otherwise the first `window - 1` entries are
missing and each later entry equals the value minus the trailing mean,
divided by the square root of the trailing population variance with
divisor equal to the window length (not window − 1). -/
theorem C5_rolling_zscore_spec (sq : ℚ → ℚ) (xs : List ℚ) (window : Int) (i : ℕ)
    (hi : i < xs.length) :
    (window ≤ 1 → rolling_zscore sq xs window = xs.map (fun _ => none)) ∧
    (1 < window →
      (i + 1 < window.toNat → (rolling_zscore sq xs window).getD i none = none) ∧
      (window.toNat ≤ i + 1 →
        (rolling_zscore sq xs window).getD i none =
          some ((xs.getD i 0 -
              (windowSlice xs window.toNat i).sum / (window.toNat : ℚ)) /
            sq (((windowSlice xs window.toNat i).map
                (fun u => (u - (windowSlice xs window.toNat i).sum /
                  (window.toNat : ℚ)) ^ 2)).sum /
              (window.toNat : ℚ))))) := by
  constructor
  · intro h
    simp [rolling_zscore, h]
  · intro h2
    have hno : ¬ window ≤ 1 := by omega
    constructor
    · intro hlt
      have hm : (rollMean xs window.toNat).getD i none = none := by
        simp only [rollMean]
        rw [getD_map_range _ _ _ _ hi, if_pos hlt]
      simp only [rolling_zscore, if_neg hno]
      rw [getD_map_range _ _ _ _ hi, hm]
    · intro hge
      have hnlt : ¬ (i + 1 < window.toNat) := by omega
      have hm : (rollMean xs window.toNat).getD i none =
          some (qmean (windowSlice xs window.toNat i)) := by
        simp only [rollMean]
        rw [getD_map_range _ _ _ _ hi, if_neg hnlt]
      have hs : (rollStd sq xs window.toNat).getD i none =
          some (sq (popVar (windowSlice xs window.toNat i))) := by
        simp only [rollStd]
        rw [getD_map_range _ _ _ _ hi, if_neg hnlt]
      have hwl : (windowSlice xs window.toNat i).length = window.toNat :=
        windowSlice_length xs window.toNat i hi hge
      simp only [rolling_zscore, if_neg hno]
      rw [getD_map_range _ _ _ _ hi, hm, hs]
      simp [qmean, popVar, hwl]

/-- Witness for C5 at a concrete input: window 3 on [1, 2, 3, 4], entry at
index 2 uses the trailing window [1, 2, 3]. -/
theorem C5_zscore_witness :
    ((3:Int) ≤ 1 → rolling_zscore id [1, 2, 3, 4] 3 =
      ([1, 2, 3, 4] : List ℚ).map (fun _ => none)) ∧
    (1 < (3:Int) →
      (2 + 1 < (3:Int).toNat → (rolling_zscore id [1, 2, 3, 4] 3).getD 2 none = none) ∧
      ((3:Int).toNat ≤ 2 + 1 →
        (rolling_zscore id [1, 2, 3, 4] 3).getD 2 none =
          some ((([1, 2, 3, 4] : List ℚ).getD 2 0 -
              (windowSlice [1, 2, 3, 4] (3:Int).toNat 2).sum / ((3:Int).toNat : ℚ)) /
            id (((windowSlice [1, 2, 3, 4] (3:Int).toNat 2).map
                (fun u => (u - (windowSlice [1, 2, 3, 4] (3:Int).toNat 2).sum /
                  ((3:Int).toNat : ℚ)) ^ 2)).sum /
              ((3:Int).toNat : ℚ))))) :=
  C5_rolling_zscore_spec id [1, 2, 3, 4] 3 2 (by norm_num)

lemma backoff_cap (k : ℕ) :
    min (min ((2:ℚ) ^ k) 30 * 2) 30 = min ((2:ℚ) ^ (k + 1)) 30 := by
  rcases le_total ((2:ℚ) ^ k) 30 with h | h
  · rw [min_eq_left h, pow_succ]
  · have h1 : (30:ℚ) ≤ 2 ^ (k + 1) :=
      le_trans h (pow_le_pow_right₀ (by norm_num) (Nat.le_succ k))
    rw [min_eq_right h, min_eq_right h1, min_eq_right (by norm_num : (30:ℚ) ≤ 30 * 2)]

lemma consumeLoop_fail_sleeps (n : ℕ) :
    ∀ k, sleepsOf (consumeLoop (min ((2:ℚ) ^ k) 30)
        (List.replicate n LoopEvent.connFail)) =
      (List.range n).map (fun j => min ((2:ℚ) ^ (k + j)) 30) := by
  induction n with
  | zero => intro k; simp [consumeLoop, sleepsOf]
  | succ m ih =>
    intro k
    rw [List.replicate_succ]
    simp only [consumeLoop, sleepsOf, List.filterMap_cons]
    rw [backoff_cap k]
    have ih1 := ih (k + 1)
    simp only [sleepsOf] at ih1
    rw [ih1, List.range_succ_eq_map, List.map_cons, List.map_map]
    have htail : List.map ((fun j => min ((2:ℚ) ^ (k + j)) 30) ∘ Nat.succ)
        (List.range m) =
        List.map (fun j => min ((2:ℚ) ^ (k + 1 + j)) 30) (List.range m) := by
      apply List.map_congr_left
      intro j hj
      have he : k + (j + 1) = k + 1 + j := by omega
      simp [Function.comp, Nat.succ_eq_add_one, he]
    rw [htail]
    simp

/-- Claim C7: starting from the reset backoff, the i-th consecutive
failed connection (0-based) sleeps exactly `min (2 ^ i) 30` time-units; a
successful handshake resets the backoff to its floor of 1; a set stop
event ends the loop with no further connection attempt. -/
theorem C7_backoff_spec (b : ℚ) (evs : List LoopEvent) (n i : ℕ) (hi : i < n) :
    (sleepsOf (consumeLoop 1 (List.replicate n LoopEvent.connFail))).getD i 0 =
      min ((2:ℚ) ^ i) 30 ∧
    consumeLoop b (LoopEvent.connOk :: evs) =
      LoopAction.attempt :: consumeLoop 1 evs ∧
    consumeLoop b (LoopEvent.stopSet :: evs) = [] := by
  refine ⟨?_, rfl, rfl⟩
  have h1 : consumeLoop 1 (List.replicate n LoopEvent.connFail) =
      consumeLoop (min ((2:ℚ) ^ 0) 30) (List.replicate n LoopEvent.connFail) := by
    norm_num
  rw [h1, consumeLoop_fail_sleeps n 0, getD_map_range _ _ _ _ hi]
  simp

/-- Witness for C7 at a concrete input: the 6th consecutive failure
(0-based index 5) sleeps min(32, 30) = 30 time-units. -/
theorem C7_backoff_witness :
    (sleepsOf (consumeLoop 1 (List.replicate 6 LoopEvent.connFail))).getD 5 0 =
      min ((2:ℚ) ^ 5) 30 ∧
    consumeLoop 7 (LoopEvent.connOk :: [LoopEvent.connFail]) =
      LoopAction.attempt :: consumeLoop 1 [LoopEvent.connFail] ∧
    consumeLoop 7 (LoopEvent.stopSet :: [LoopEvent.connFail]) = [] :=
  C7_backoff_spec 7 [LoopEvent.connFail] 6 5 (by norm_num)

/-- Claim C8: a second `start` while running with any collection whose
case-folded, de-duplicated (sorted) form equals the current one is a
no-op — unchanged state and no stop or launch action; a collection with a
different normalized set first stops the session and then launches the
new normalized set. -/
theorem C8_start_idempotent_spec (st0 : IngestState) (c0 c1 : List String)
    (hnorm : normalize_symbols c1 = normalize_symbols c0) :
    start (start st0 c0).1 c1 = ((start st0 c0).1, []) ∧
    (∀ st c, normalize_symbols c ≠ st.symbols →
      start st c = ({ symbols := normalize_symbols c, running := true },
        [StartAction.stopSession, StartAction.launchTasks (normalize_symbols c)])) := by
  have key : ∀ (st : IngestState) (c : List String), st.running = true →
      normalize_symbols c = st.symbols → start st c = (st, []) := by
    intro st c hr hs
    unfold start
    rw [if_pos ⟨hs, hr⟩]
  constructor
  · have h1 : (start st0 c0).1.symbols = normalize_symbols c0 ∧
        (start st0 c0).1.running = true := by
      simp only [start]
      split_ifs with h
      · exact ⟨h.1.symm, h.2⟩
      · exact ⟨rfl, rfl⟩
    exact key _ c1 h1.2 (hnorm.trans h1.1.symm)
  · intro st c hne
    unfold start
    rw [if_neg (fun hc => hne hc.1)]

/-- Witness for C8 at a concrete input: restarting with a permuted,
re-cased spelling of the same two symbols is a no-op. -/
theorem C8_start_witness :
    start (start ⟨[], false⟩ ["BTCusdt", "ethusdt", "btcUSDT"]).1
        ["ETHUSDT", "btcusdt"] =
      ((start ⟨[], false⟩ ["BTCusdt", "ethusdt", "btcUSDT"]).1, []) ∧
    (∀ st c, normalize_symbols c ≠ st.symbols →
      start st c = ({ symbols := normalize_symbols c, running := true },
        [StartAction.stopSession, StartAction.launchTasks (normalize_symbols c)])) :=
  C8_start_idempotent_spec ⟨[], false⟩ ["BTCusdt", "ethusdt", "btcUSDT"]
    ["ETHUSDT", "btcusdt"] rfl

end QuantApp
